import Mathlib

/-!
Verification of the task deduplication / merge engine of the assistant app.

The definitions below are a shallow embedding of the TypeScript sources under
`src/app/assistant/_utils/` (`taskComparison.ts`, `taskOperations.ts`,
`listCounters.ts`, `taskValidation.ts`).  JavaScript numbers are modelled as
`ℚ` (all arithmetic performed by the embedded code is exact on rationals),
strings as Lean `String`/`List Char`, `undefined`-able values as `Option`.
-/

namespace Assistant

/-- `s.toLowerCase()` modelled character-wise (ASCII case folding). -/
def toLowerStr (s : String) : String :=
  String.mk (s.data.map Char.toLower)

/-- The effect of `normalize('NFD').replace(/[̀-ͯ]/g, '')` on the
accented letters that occur after lower-casing: the NFD decomposition drops
the combining mark, leaving the base letter.  Other characters are kept. -/
def stripDiacritic (c : Char) : Char :=
  match c with
  | 'á' => 'a'
  | 'à' => 'a'
  | 'ä' => 'a'
  | 'â' => 'a'
  | 'é' => 'e'
  | 'è' => 'e'
  | 'ë' => 'e'
  | 'ê' => 'e'
  | 'í' => 'i'
  | 'ì' => 'i'
  | 'ï' => 'i'
  | 'î' => 'i'
  | 'ó' => 'o'
  | 'ò' => 'o'
  | 'ö' => 'o'
  | 'ô' => 'o'
  | 'ú' => 'u'
  | 'ù' => 'u'
  | 'ü' => 'u'
  | 'û' => 'u'
  | 'ñ' => 'n'
  | 'ç' => 'c'
  | 'Á' => 'a'
  | 'À' => 'a'
  | 'Ä' => 'a'
  | 'Â' => 'a'
  | 'É' => 'e'
  | 'È' => 'e'
  | 'Ë' => 'e'
  | 'Ê' => 'e'
  | 'Í' => 'i'
  | 'Ì' => 'i'
  | 'Ï' => 'i'
  | 'Î' => 'i'
  | 'Ó' => 'o'
  | 'Ò' => 'o'
  | 'Ö' => 'o'
  | 'Ô' => 'o'
  | 'Ú' => 'u'
  | 'Ù' => 'u'
  | 'Ü' => 'u'
  | 'Û' => 'u'
  | 'Ñ' => 'n'
  | 'Ç' => 'c'
  | c => c

/-- JavaScript's `\w` character class (ASCII letters, digits, underscore). -/
def isWordChar (c : Char) : Bool :=
  c.isAlpha || c.isDigit || c = '_'

/-- Splits a character list into its maximal whitespace-free runs
(`cur` accumulates the current run in reverse).  This is the effect of
`.replace(/\s+/g, ' ').trim()` followed by splitting on single spaces. -/
def wordsAux (cur : List Char) : List Char → List (List Char)
  | [] => if cur.isEmpty then [] else [cur.reverse]
  | c :: cs =>
      if c.isWhitespace then
        if cur.isEmpty then wordsAux [] cs else cur.reverse :: wordsAux [] cs
      else
        wordsAux (c :: cur) cs

/-- Joins words with single spaces (the collapsed-whitespace, trimmed form). -/
def joinWords : List (List Char) → List Char
  | [] => []
  | [w] => w
  | w :: ws => w ++ ' ' :: joinWords ws

/-- `normalizeText` from `taskComparison.ts`: lower-case, strip diacritics,
drop punctuation (everything outside `\w` and whitespace), collapse
whitespace runs to single spaces, trim. -/
def normalizeText (s : String) : String :=
  let lowered := s.data.map Char.toLower
  let stripped := lowered.map stripDiacritic
  let kept := stripped.filter (fun c => isWordChar c || c.isWhitespace)
  String.mk (joinWords (wordsAux [] kept))

/-- Helper for `levenshtein`: given `f = levenshtein xs`, computes
`levenshtein (x :: xs)` by structural recursion on the second string.
Its two equations are exactly the first-column initialisation and the
inner-loop recurrence of the matrix in `calculateTextSimilarity`. -/
def levCons (x : Char) (f : List Char → Nat) : List Char → Nat
  | [] => f [] + 1
  | y :: ys =>
      let cost : Nat := if x = y then 0 else 1
      min (f (y :: ys) + 1) (min (levCons x f ys + 1) (f ys + cost))

/-- The Levenshtein edit-distance recurrence computed by the dynamic-programming
matrix in `calculateTextSimilarity`: `min` of deletion, insertion and
substitution (cost 0 on equal characters, 1 otherwise); see
`levenshtein_nil`, `levenshtein_cons_nil` and `levenshtein_cons_cons` for the
recurrence in the exact shape of the source. -/
def levenshtein : List Char → List Char → Nat
  | [] => fun ys => ys.length
  | x :: xs => levCons x (levenshtein xs)

/-- `calculateTextSimilarity` from `taskComparison.ts`: normalize both texts;
`1` if equal; `0` and `1` special cases on empty strings; otherwise
`1 - distance / max(len1, len2)`. -/
def calculateTextSimilarity (text1 text2 : String) : ℚ :=
  let normalized1 := normalizeText text1
  let normalized2 := normalizeText text2
  if normalized1 = normalized2 then 1
  else
    let len1 := normalized1.length
    let len2 := normalized2.length
    if len1 = 0 then (if len2 = 0 then 1 else 0)
    else if len2 = 0 then 0
    else 1 - (levenshtein normalized1.data normalized2.data : ℚ) / (max len1 len2 : ℚ)

/-- The `Reminder` record (`src/app/assistant/_types/Reminder.ts`; the type
file itself is not in the snapshot — fields reconstructed from the spec's data
model and every construction/use site across `src/app/assistant`).
Optional (`undefined`-able) fields are `Option`s. -/
structure Reminder where
  id : String
  text : String
  isCompleted : Bool
  listId : String
  dueDate : Option String
  relationships : Option (List String)
  notes : Option String
  isFlagged : Bool
  itemType : Option String
  assignedTo : Option String
deriving Repr, DecidableEq

/-- `Pick<Reminder, 'text' | 'assignedTo' | 'itemType'>`, the shape
`areTasksSimilar` and `findSimilarTask` take for the incoming task. -/
structure TaskKey where
  text : String
  assignedTo : Option String
  itemType : Option String
deriving Repr, DecidableEq

/-- The matching-relevant projection of a `Reminder` (TypeScript passes the
whole record where a `Pick` is expected; structural typing). -/
def Reminder.key (r : Reminder) : TaskKey :=
  ⟨r.text, r.assignedTo, r.itemType⟩

/-- `x?.toLowerCase()`: lower-casing under optional chaining. -/
def optToLower (x : Option String) : Option String :=
  x.map toLowerStr

/-- `areTasksSimilar` from `taskComparison.ts`: same `itemType`
(case-insensitive, `undefined` equal to `undefined`), then text similarity
`≥ threshold`, or same `assignedTo` (case-insensitive) with similarity
`≥ 0.7`.  The source's default threshold is `0.85`. -/
def areTasksSimilar (task1 task2 : TaskKey) (threshold : ℚ) : Bool :=
  if optToLower task1.itemType ≠ optToLower task2.itemType then
    false
  else
    let textSimilarity := calculateTextSimilarity task1.text task2.text
    if threshold ≤ textSimilarity then
      true
    else if optToLower task1.assignedTo = optToLower task2.assignedTo ∧
        (0.7 : ℚ) ≤ textSimilarity then
      true
    else
      false

/-- The result record of `findSimilarTask` (`{ index; task; similarity }`,
no-match encoded as index `-1` / task `null` / similarity `0`). -/
structure SimilarTaskResult where
  index : Int
  task : Option Reminder
  similarity : ℚ
deriving Repr, DecidableEq

/-- The loop body of `findSimilarTask`, walking the remaining tasks with the
index `i` of the current element and the best accumulator so far: skip
completed tasks; replace the accumulator when the similarity strictly exceeds
the best one so far and `areTasksSimilar` accepts the pair. -/
def findSimilarAux (newTask : TaskKey) (threshold : ℚ) :
    List Reminder → Int → SimilarTaskResult → SimilarTaskResult
  | [], _, acc => acc
  | task :: rest, i, acc =>
      if task.isCompleted then
        findSimilarAux newTask threshold rest (i + 1) acc
      else
        let similarity := calculateTextSimilarity newTask.text task.text
        if acc.similarity < similarity ∧
            areTasksSimilar newTask task.key threshold = true then
          findSimilarAux newTask threshold rest (i + 1) ⟨i, some task, similarity⟩
        else
          findSimilarAux newTask threshold rest (i + 1) acc

/-- `findSimilarTask` from `taskComparison.ts`: best (strictly improving)
similar, non-completed task; `⟨-1, none, 0⟩` when none qualifies. -/
def findSimilarTask (newTask : TaskKey) (existingTasks : List Reminder)
    (threshold : ℚ) : SimilarTaskResult :=
  findSimilarAux newTask threshold existingTasks 0 ⟨-1, none, 0⟩

/-- Searches a character list for an occurrence of the time-of-day regex
`/\d{1,2}:\d{2}|[ap]m/i`: a digit, a colon and two digits somewhere (the
one-or-two-digit hour matches somewhere exactly when a one-digit hour does),
or an `a`/`p` followed by `m`, case-insensitively.  The scorer's longer
alternation `/\d{1,2}:\d{2}|[ap]m|[AP]M|\d{1,2}\s*[ap]m/i` matches somewhere
exactly when this one does, since each extra alternative contains an `[ap]m`
occurrence, so both regex tests are embedded by this single scan. -/
def scanTime : List Char → Bool
  | [] => false
  | c :: cs =>
      (match c :: cs with
        | c1 :: c2 :: c3 :: c4 :: _ =>
            c1.isDigit && c2 = ':' && c3.isDigit && c4.isDigit
        | _ => false) ||
      (match c :: cs with
        | c1 :: c2 :: _ =>
            (c1.toLower = 'a' || c1.toLower = 'p') && c2.toLower = 'm'
        | _ => false) ||
      scanTime cs

/-- `task.text.trim().split(/\s+/).length`: number of whitespace-delimited
words; JavaScript's `''.split(/\s+/)` is `['']`, so the result on an
all-whitespace text is `1`. -/
def wordCount (s : String) : Nat :=
  let w := wordsAux [] s.data
  if w.isEmpty then 1 else w.length

/-- The argument shape of `calculateInformationScore`. -/
structure ScoreInput where
  text : String
  dueDate : Option String
  assignedTo : Option String
  relationships : Option (List String)
  notes : Option String
deriving Repr, DecidableEq

/-- A present, non-empty optional string (JavaScript `x && x !== ''`). -/
def optNonEmpty : Option String → Bool
  | none => false
  | some s => !(s = "")

/-- `calculateInformationScore` from `taskComparison.ts`: 2 points per word,
15 for a non-empty due date plus 10 if it carries a time of day, 8 for an
assignee, 5 per relationship entry, 0.5 per character of notes. -/
def calculateInformationScore (task : ScoreInput) : ℚ :=
  let wordScore : ℚ := (wordCount task.text : ℚ) * 2
  let dateScore : ℚ :=
    match task.dueDate with
    | none => 0
    | some d => if d = "" then 0 else 15 + (if scanTime d.data then 10 else 0)
  let assignedScore : ℚ := if optNonEmpty task.assignedTo then 8 else 0
  let relationshipScore : ℚ :=
    match task.relationships with
    | none => 0
    | some rels => if rels.length > 0 then (rels.length : ℚ) * 5 else 0
  let notesScore : ℚ :=
    match task.notes with
    | none => 0
    | some n => if n = "" then 0 else (n.length : ℚ) * (1 / 2)
  wordScore + dateScore + assignedScore + relationshipScore + notesScore

/-- `shouldUpdateField` from `taskComparison.ts`: keep the existing value when
the new one is missing/empty; update when the existing one is missing/empty or
differs from the new one. -/
def shouldUpdateField (existingValue newValue : Option String) : Bool :=
  match newValue with
  | none => false
  | some nv =>
      if nv = "" then false
      else
        match existingValue with
        | none => true
        | some ev => if ev = "" then true else decide (ev ≠ nv)

/-- `hasTimeInDate` from `taskComparison.ts`: `false` on a missing date,
otherwise the `/\d{1,2}:\d{2}|[ap]m/i` test. -/
def hasTimeInDate : Option String → Bool
  | none => false
  | some date => scanTime date.data

/-- A falsy optional string (`undefined` or `''`). -/
def optFalsy : Option String → Bool
  | none => true
  | some s => decide (s = "")

/-- `shouldUpdateDateField` from `taskComparison.ts`: `shouldUpdateField`
must hold, and then the existing date is falsy or the new date's time-of-day
presence is `≥` the existing one's (booleans compared as numbers). -/
def shouldUpdateDateField (existingDate newDate : Option String) : Bool :=
  if !shouldUpdateField existingDate newDate then
    false
  else
    let existingHasTime := hasTimeInDate existingDate
    let newHasTime := hasTimeInDate newDate
    optFalsy existingDate || (!existingHasTime || newHasTime)

/-- `Partial<Reminder>` restricted to the fields `mergeTaskData` can write. -/
structure ReminderUpdates where
  text : Option String
  dueDate : Option String
  assignedTo : Option String
  relationships : Option (List String)
  isCompleted : Option Bool
deriving Repr, DecidableEq

/-- The empty `updates` object `mergeTaskData` starts from. -/
def ReminderUpdates.empty : ReminderUpdates :=
  ⟨none, none, none, none, none⟩

/-- `updateTextField`: write the new text when strictly longer. -/
def updateTextField (existingText newText : String)
    (updates : ReminderUpdates) : Bool × ReminderUpdates :=
  if existingText.length < newText.length then
    (true, { updates with text := some newText })
  else
    (false, updates)

/-- `updateDateField`: write the new date when `shouldUpdateDateField` says so. -/
def updateDateField (existingDate : Option String) (newDate : String)
    (updates : ReminderUpdates) : Bool × ReminderUpdates :=
  if shouldUpdateDateField existingDate (some newDate) then
    (true, { updates with dueDate := some newDate })
  else
    (false, updates)

/-- `updateAssignedToField`: write the new assignee when `shouldUpdateField`
says so. -/
def updateAssignedToField (existingAssignedTo : Option String)
    (newAssignedTo : String) (updates : ReminderUpdates) :
    Bool × ReminderUpdates :=
  if shouldUpdateField existingAssignedTo (some newAssignedTo) then
    (true, { updates with assignedTo := some newAssignedTo })
  else
    (false, updates)

/-- `Array.from(new Set(l))`: deduplication keeping first occurrences
(insertion order). -/
def dedupKeepFirst (seen : List String) : List String → List String
  | [] => []
  | x :: xs =>
      if seen.contains x then dedupKeepFirst seen xs
      else x :: dedupKeepFirst (x :: seen) xs

/-- `updateRelationships`: union existing relationships with the new people,
deduplicated in insertion order; written only when the union grew. -/
def updateRelationships (existingRelationships : Option (List String))
    (newPeopleInvolved : List String) (updates : ReminderUpdates) :
    Bool × ReminderUpdates :=
  if newPeopleInvolved.length = 0 then
    (false, updates)
  else
    let existing := existingRelationships.getD []
    let combined := dedupKeepFirst [] (existing ++ newPeopleInvolved)
    if combined.length ≠ existing.length then
      (true, { updates with relationships := some combined })
    else
      (false, updates)

/-- `markAsIncomplete`: force `isCompleted := false` when it was `true`. -/
def markAsIncomplete (isCompleted : Bool) (updates : ReminderUpdates) :
    Bool × ReminderUpdates :=
  if isCompleted then
    (true, { updates with isCompleted := some false })
  else
    (false, updates)

/-- The reason string `shouldProceedWithMerge` produces when the existing task
wins the score comparison (it cites both scores). -/
def scoreComparisonReason (existingScore newScore : ℚ) : String :=
  "La tarea existente tiene más información (" ++ toString existingScore ++
    " vs " ++ toString newScore ++ ")"

/-- `shouldProceedWithMerge` from `taskComparison.ts`: refuse (with the score
comparison as reason) exactly when the new score is strictly smaller. -/
def shouldProceedWithMerge (existingScore newScore : ℚ) : Bool × String :=
  if newScore < existingScore then
    (false, scoreComparisonReason existingScore newScore)
  else
    (true, "")

/-- The `newData` argument of `mergeTaskData` (the extracted `TaskData`). -/
structure NewTaskData where
  taskName : String
  peopleInvolved : List String
  taskCategory : String
  dateToPerform : String
  itemType : String
  assignedTo : String
deriving Repr, DecidableEq

/-- `applyTaskUpdates`: run every field updater (all of them are called;
`f(...) || hasChanges` does not short-circuit the call), threading the
`updates` object, and report whether any of them changed something. -/
def applyTaskUpdates (existingTask : Reminder) (newData : NewTaskData)
    (updates : ReminderUpdates) : Bool × ReminderUpdates :=
  let r1 := updateTextField existingTask.text newData.taskName updates
  let r2 := updateDateField existingTask.dueDate newData.dateToPerform r1.2
  let r3 := updateAssignedToField existingTask.assignedTo newData.assignedTo r2.2
  let r4 := updateRelationships existingTask.relationships newData.peopleInvolved r3.2
  let r5 := markAsIncomplete existingTask.isCompleted r4.2
  (r1.1 || r2.1 || r3.1 || r4.1 || r5.1, r5.2)

/-- The information score `mergeTaskData` computes for the existing task
(from its persisted fields, notes included). -/
def existingScoreOf (existingTask : Reminder) : ℚ :=
  calculateInformationScore
    ⟨existingTask.text, existingTask.dueDate, existingTask.assignedTo,
      existingTask.relationships, existingTask.notes⟩

/-- The information score `mergeTaskData` computes for the incoming fields
(notes deliberately `undefined`). -/
def newScoreOf (newData : NewTaskData) : ℚ :=
  calculateInformationScore
    ⟨newData.taskName, some newData.dateToPerform, some newData.assignedTo,
      some newData.peopleInvolved, none⟩

/-- The result record of `mergeTaskData`. -/
structure MergeResult where
  updates : ReminderUpdates
  shouldUpdate : Bool
  reason : String
deriving Repr, DecidableEq

/-- `mergeTaskData` from `taskComparison.ts`: score both versions, refuse with
empty updates when the new one is strictly less informative, otherwise apply
the field updaters and report whether anything changed. -/
def mergeTaskData (existingTask : Reminder) (newData : NewTaskData) :
    MergeResult :=
  let existingScore := existingScoreOf existingTask
  let newScore := newScoreOf newData
  let proceed := shouldProceedWithMerge existingScore newScore
  if proceed.1 then
    let applied := applyTaskUpdates existingTask newData ReminderUpdates.empty
    ⟨applied.2, applied.1,
      if applied.1 then
        "Tarea actualizada con más información (" ++ toString newScore ++
          " vs " ++ toString existingScore ++ ")"
      else
        "No hay cambios necesarios"⟩
  else
    ⟨ReminderUpdates.empty, false, proceed.2⟩

/-- The `ReminderList` record (`src/app/assistant/_types/ReminderList.ts`).
The `icon` field (a React component) is outside the embedding; every list the
embedded code builds carries the same `ListIcon`, so dropping it loses no
information relevant to the engine. -/
structure ReminderList where
  id : String
  name : String
  color : String
  count : Nat
  parentId : Option String
deriving Repr, DecidableEq

/-- JavaScript's `s.includes(sub)` (substring containment). -/
def containsSub (sub : List Char) : List Char → Bool
  | [] => sub.isEmpty
  | c :: cs => sub.isPrefixOf (c :: cs) || containsSub sub cs

/-- `determineParentId` from `taskOperations.ts`: item type first, then the
family-keyword heuristic on the relationship name, else the catch-all list. -/
def determineParentId (relationship itemType : String) : String :=
  let lowerRelationship := toLowerStr relationship
  let lowerItemType := toLowerStr itemType
  if lowerItemType = "task" then "task"
  else if lowerItemType = "project" then "project"
  else if lowerItemType = "habit" then "habit"
  else
    let familyKeywords := ["family", "familia", "mom", "dad", "sister", "brother"]
    if familyKeywords.any
        (fun keyword => containsSub keyword.data lowerRelationship.data) then
      "family"
    else "all"

/-- Two's-complement wrap into a signed 32-bit integer (JavaScript `ToInt32`,
applied by the `<<` operator). -/
def toInt32 (n : Int) : Int :=
  (n + 2 ^ 31) % 2 ^ 32 - 2 ^ 31

/-- One step of the hash in `getColorForRelationship`:
`char.charCodeAt(0) + ((acc << 5) - acc)` — the shift coerces to and wraps in
int32; the surrounding addition/subtraction stay exact. -/
def hashStep (acc : Int) (c : Char) : Int :=
  (c.toNat : Int) + (toInt32 (toInt32 acc * 32) - acc)

/-- The fixed color palette of `getColorForRelationship`. -/
def relationshipColors : List String :=
  ["text-blue-400", "text-green-400", "text-yellow-400",
    "text-purple-400", "text-pink-400", "text-indigo-400"]

/-- `getColorForRelationship` from `taskOperations.ts`: hash the name and
index the palette by `Math.abs(hash) % colors.length`. -/
def getColorForRelationship (relationship : String) : String :=
  let hash := relationship.data.foldl hashStep 0
  relationshipColors.getD (hash.natAbs % relationshipColors.length) ""

/-- The list `createRelationshipLists` pushes for a so-far-unknown
relationship.  Its id is `String(Date.now() + Math.random())`; that impure
fresh-id supply is modelled by the explicit `freshIds` parameter, `n` being
the number of lists already created in this call. -/
def newRelationshipList (freshIds : Nat → String) (n : Nat)
    (relationship itemType : String) : ReminderList :=
  ⟨freshIds n, relationship, getColorForRelationship relationship, 0,
    some (determineParentId relationship itemType)⟩

/-- The `forEach` of `createRelationshipLists`: for each relationship, skip it
when some list in the accumulated collection has exactly that `name`
(`list.name === relationship`), else push a fresh list. -/
def createRelationshipListsAux (itemType : String) (freshIds : Nat → String) :
    List String → List ReminderList → Nat → List ReminderList
  | [], updatedLists, _ => updatedLists
  | relationship :: rest, updatedLists, n =>
      if updatedLists.any (fun list => list.name = relationship) then
        createRelationshipListsAux itemType freshIds rest updatedLists n
      else
        createRelationshipListsAux itemType freshIds rest
          (updatedLists ++ [newRelationshipList freshIds n relationship itemType])
          (n + 1)

/-- `createRelationshipLists` from `taskOperations.ts`:
`[...peopleInvolved, taskCategory].filter(Boolean)` (dropping empty strings),
then lazily synthesize a list for every relationship not already present by
exact name. -/
def createRelationshipLists (peopleInvolved : List String)
    (taskCategory itemType : String) (currentLists : List ReminderList)
    (freshIds : Nat → String) : List ReminderList :=
  let relationships := (peopleInvolved ++ [taskCategory]).filter (fun s => s ≠ "")
  createRelationshipListsAux itemType freshIds relationships currentLists 0

/-- JavaScript `xs?.includes(y)` on a possibly-`undefined` array. -/
def optIncludes (xs : Option (List String)) (y : String) : Bool :=
  match xs with
  | some l => l.contains y
  | none => false

/-- `calculateFamilyCount` from `listCounters.ts`: reminders related to some
list whose `parentId` is `'family'` (note: completed ones included). -/
def calculateFamilyCount (reminders : List Reminder)
    (allLists : List ReminderList) : Nat :=
  let familyLists := allLists.filter (fun l => l.parentId = some "family")
  (reminders.filter (fun r =>
    familyLists.any (fun fl => optIncludes r.relationships fl.name))).length

/-- `calculateItemTypeCount` from `listCounters.ts`. -/
def calculateItemTypeCount (reminders : List Reminder) (itemType : String) :
    Nat :=
  (reminders.filter (fun r =>
    optToLower r.itemType = some itemType && !r.isCompleted)).length

/-- `calculateRelationshipCount` from `listCounters.ts`. -/
def calculateRelationshipCount (reminders : List Reminder) (listName : String) :
    Nat :=
  (reminders.filter (fun r =>
    optIncludes r.relationships listName && !r.isCompleted)).length

/-- `calculateListCount` from `listCounters.ts`.  The impure
`new Date().toISOString().split('T')[0]` is the explicit `today` parameter.
The string comparison `r.dueDate > today` is lexicographic, and
`r.dueDate && ...` makes an empty or missing due date fail the
`scheduled` filter. -/
def calculateListCount (today : String) (list : ReminderList)
    (reminders : List Reminder) (allLists : List ReminderList) : Nat :=
  if list.id = "all" then
    (reminders.filter (fun r => !r.isCompleted)).length
  else if list.id = "today" then
    (reminders.filter (fun r => r.dueDate = some today && !r.isCompleted)).length
  else if list.id = "scheduled" then
    (reminders.filter (fun r =>
      (match r.dueDate with
        | some d => !(d = "") && decide (today < d)
        | none => false) && !r.isCompleted)).length
  else if list.id = "flagged" then
    (reminders.filter (fun r => r.isFlagged && !r.isCompleted)).length
  else if list.id = "family" then
    calculateFamilyCount reminders allLists
  else if list.id = "tasks" then
    calculateItemTypeCount reminders "task"
  else if list.id = "projects" then
    calculateItemTypeCount reminders "project"
  else if list.id = "habits" then
    calculateItemTypeCount reminders "habit"
  else
    calculateRelationshipCount reminders list.name

/-- `updateListCounts` from `listCounters.ts`: recompute every list's count
from scratch against the full reminder collection. -/
def updateListCounts (today : String) (lists : List ReminderList)
    (reminders : List Reminder) : List ReminderList :=
  lists.map (fun list =>
    { list with count := calculateListCount today list reminders lists })

/-- The missing-field tags of `taskValidation.ts`. -/
inductive MissingField where
  | dateToPerform
  | assignedTo
deriving Repr, DecidableEq

/-- `trim`: strip leading and trailing whitespace from a character list. -/
def trimChars (cs : List Char) : List Char :=
  ((cs.dropWhile Char.isWhitespace).reverse.dropWhile Char.isWhitespace).reverse

/-- A missing, empty or whitespace-only optional string
(`!x || x.trim() === ''`). -/
def optBlank : Option String → Bool
  | none => true
  | some s => decide (trimChars s.data = [])

/-- The argument shape of `validateTaskData`. -/
structure TaskValidationInput where
  taskName : String
  dateToPerform : Option String
  itemType : String
  assignedTo : Option String
deriving Repr, DecidableEq

/-- `validateTaskData` from `taskValidation.ts`: tasks and projects require a
non-blank `dateToPerform`; the `assignedTo` check is commented out in the
source, so no other field is ever reported. -/
def validateTaskData (taskData : TaskValidationInput) :
    Bool × List MissingField :=
  let missingFields :=
    if (toLowerStr taskData.itemType = "task" ∨
          toLowerStr taskData.itemType = "project") ∧
        optBlank taskData.dateToPerform = true then
      [MissingField.dateToPerform]
    else
      []
  (decide (missingFields.length = 0), missingFields)

/-- Spec-side matching criteria of claim C2 (spec §4.3 step 2): equal
case-insensitive item types, and text similarity above the threshold or above
`0.7` with equal case-insensitive assignees. -/
def similarCriteria (newTask : TaskKey) (threshold : ℚ) (t : Reminder) : Prop :=
  optToLower t.itemType = optToLower newTask.itemType ∧
    (threshold ≤ calculateTextSimilarity newTask.text t.text ∨
      (optToLower t.assignedTo = optToLower newTask.assignedTo ∧
        (0.7 : ℚ) ≤ calculateTextSimilarity newTask.text t.text))

/-- Concrete incoming task used to exercise the matcher on identical texts. -/
def keyBuyMilk : TaskKey :=
  ⟨"buy milk", none, some "task"⟩

/-- Concrete stored reminder with the same text as `keyBuyMilk`. -/
def taskBuyMilk : Reminder :=
  ⟨"1", "buy milk", false, "all", none, none, none, false, some "task", none⟩

/-- Concrete incoming task with text entirely different from `taskXY`. -/
def keyAB : TaskKey :=
  ⟨"ab", none, some "task"⟩

/-- Concrete stored reminder sharing no character with `keyAB`'s text. -/
def taskXY : Reminder :=
  ⟨"1", "xy", false, "all", none, none, none, false, some "task", none⟩

/-- Concrete information-rich stored reminder (date, assignee, notes). -/
def richTask : Reminder :=
  ⟨"1", "call mom and dad", false, "all", some "2024-12-15", none,
    some "details", false, some "task", some "Alice"⟩

/-- Concrete information-poor incoming fields (bare short name only). -/
def poorData : NewTaskData :=
  ⟨"call", [], "", "", "task", ""⟩

/-- Concrete incoming fields that out-score `taskBuyMilk` and carry a fresh
untimed due date. -/
def datedData : NewTaskData :=
  ⟨"buy milk", ["Bob"], "", "2024-12-15", "task", "Bob"⟩

/-- Concrete stored reminder whose due date carries a time of day. -/
def timedTask : Reminder :=
  ⟨"1", "buy milk", false, "all", some "2024-12-15 7pm", none, none, false,
    some "task", none⟩

/-! ## Theorems -/

theorem levenshtein_nil (ys : List Char) : levenshtein [] ys = ys.length :=
  rfl

theorem levenshtein_nil_right : ∀ xs : List Char, levenshtein xs [] = xs.length
  | [] => rfl
  | x :: xs => by
      simp [levenshtein, levCons, levenshtein_nil_right xs]

theorem levenshtein_cons_cons (x y : Char) (xs ys : List Char) :
    levenshtein (x :: xs) (y :: ys) =
      min (levenshtein xs (y :: ys) + 1)
        (min (levenshtein (x :: xs) ys + 1)
          (levenshtein xs ys + if x = y then 0 else 1)) :=
  rfl

theorem levenshtein_comm :
    ∀ xs ys : List Char, levenshtein xs ys = levenshtein ys xs
  | [], ys => by simp [levenshtein_nil, levenshtein_nil_right]
  | x :: xs, [] => by simp [levenshtein_nil, levenshtein_nil_right]
  | x :: xs, y :: ys => by
      rw [levenshtein_cons_cons, levenshtein_cons_cons y x,
        levenshtein_comm xs (y :: ys), levenshtein_comm (x :: xs) ys,
        levenshtein_comm xs ys]
      have hc : (if x = y then 0 else 1) = (if y = x then 0 else 1) := by
        simp [eq_comm]
      rw [hc, min_left_comm]
termination_by xs ys => xs.length + ys.length
decreasing_by
  all_goals simp [List.length_cons]
  all_goals omega

theorem levenshtein_le_max :
    ∀ xs ys : List Char, levenshtein xs ys ≤ max xs.length ys.length
  | [], ys => by simp [levenshtein_nil]
  | _ :: _, [] => by simp [levenshtein_nil_right]
  | x :: xs, y :: ys => by
      rw [levenshtein_cons_cons]
      have h := levenshtein_le_max xs ys
      by_cases hxy : x = y <;> simp only [hxy, if_true, if_false, ite_true,
        ite_false, List.length_cons] <;> omega
termination_by xs ys => xs.length + ys.length
decreasing_by
  all_goals simp [List.length_cons]
  all_goals omega

/-- C7: text similarity is symmetric — for all strings `a` and `b`,
`calculateTextSimilarity a b = calculateTextSimilarity b a`. -/
theorem calculateTextSimilarity_symm (a b : String) :
    calculateTextSimilarity a b = calculateTextSimilarity b a := by
  unfold calculateTextSimilarity
  by_cases h : normalizeText a = normalizeText b
  · simp [h]
  · have h' : ¬normalizeText b = normalizeText a := fun e => h e.symm
    simp only [if_neg h, if_neg h']
    by_cases h1 : (normalizeText a).length = 0 <;>
      by_cases h2 : (normalizeText b).length = 0 <;>
        simp [h1, h2, levenshtein_comm, max_comm]

theorem levenshtein_cast_le_max (n1 n2 : String) :
    (levenshtein n1.data n2.data : ℚ) ≤ max (n1.length : ℚ) (n2.length : ℚ) := by
  have h := levenshtein_le_max n1.data n2.data
  have : ((levenshtein n1.data n2.data : Nat) : ℚ) ≤
      ((max n1.data.length n2.data.length : Nat) : ℚ) := by
    exact_mod_cast h
  calc (levenshtein n1.data n2.data : ℚ) ≤
      ((max n1.data.length n2.data.length : Nat) : ℚ) := this
    _ = max (n1.length : ℚ) (n2.length : ℚ) := by
        rw [Nat.cast_max]
        rfl

/-- C8: text similarity is bounded — for all strings `a` and `b`,
`calculateTextSimilarity a b` lies in `[0, 1]` (the Levenshtein distance of
the normalized strings never exceeds the longer normalized length). -/
theorem calculateTextSimilarity_bounds (a b : String) :
    0 ≤ calculateTextSimilarity a b ∧ calculateTextSimilarity a b ≤ 1 := by
  unfold calculateTextSimilarity
  by_cases h : normalizeText a = normalizeText b
  · simp [h]
  · simp only [if_neg h]
    by_cases h1 : (normalizeText a).length = 0
    · by_cases h2 : (normalizeText b).length = 0 <;> simp [h1, h2]
    · by_cases h2 : (normalizeText b).length = 0
      · simp [h1, h2]
      · simp only [if_neg h1, if_neg h2]
        have hm : (0 : ℚ) < max ((normalizeText a).length : ℚ)
            ((normalizeText b).length : ℚ) := by
          have : (0 : ℚ) < ((normalizeText a).length : ℚ) := by
            exact_mod_cast Nat.pos_of_ne_zero h1
          exact lt_max_of_lt_left this
        have hd : (levenshtein (normalizeText a).data (normalizeText b).data : ℚ) ≤
            max ((normalizeText a).length : ℚ) ((normalizeText b).length : ℚ) :=
          levenshtein_cast_le_max _ _
        have hd0 : (0 : ℚ) ≤
            (levenshtein (normalizeText a).data (normalizeText b).data : ℚ) := by
          positivity
        constructor
        · have : (levenshtein (normalizeText a).data (normalizeText b).data : ℚ) /
              max ((normalizeText a).length : ℚ) ((normalizeText b).length : ℚ) ≤ 1 :=
            (div_le_one hm).mpr hd
          linarith
        · have : (0 : ℚ) ≤
              (levenshtein (normalizeText a).data (normalizeText b).data : ℚ) /
                max ((normalizeText a).length : ℚ) ((normalizeText b).length : ℚ) :=
            div_nonneg hd0 (le_of_lt hm)
          linarith

theorem findSimilarAux_nil (k : TaskKey) (th : ℚ) (i : Int)
    (acc : SimilarTaskResult) : findSimilarAux k th [] i acc = acc :=
  rfl

theorem findSimilarAux_cons_completed (k : TaskKey) (th : ℚ) (task : Reminder)
    (rest : List Reminder) (i : Int) (acc : SimilarTaskResult)
    (h : task.isCompleted = true) :
    findSimilarAux k th (task :: rest) i acc =
      findSimilarAux k th rest (i + 1) acc := by
  simp [findSimilarAux, h]

theorem findSimilarAux_cons_pick (k : TaskKey) (th : ℚ) (task : Reminder)
    (rest : List Reminder) (i : Int) (acc : SimilarTaskResult)
    (h : task.isCompleted = false)
    (h2 : acc.similarity < calculateTextSimilarity k.text task.text ∧
      areTasksSimilar k task.key th = true) :
    findSimilarAux k th (task :: rest) i acc =
      findSimilarAux k th rest (i + 1)
        ⟨i, some task, calculateTextSimilarity k.text task.text⟩ := by
  simp only [findSimilarAux, h, if_pos h2, Bool.false_eq_true, if_false]

theorem findSimilarAux_cons_skip (k : TaskKey) (th : ℚ) (task : Reminder)
    (rest : List Reminder) (i : Int) (acc : SimilarTaskResult)
    (h : task.isCompleted = false)
    (h2 : ¬(acc.similarity < calculateTextSimilarity k.text task.text ∧
      areTasksSimilar k task.key th = true)) :
    findSimilarAux k th (task :: rest) i acc =
      findSimilarAux k th rest (i + 1) acc := by
  simp only [findSimilarAux, h, if_neg h2, Bool.false_eq_true, if_false]

theorem findSimilarAux_mono (k : TaskKey) (th : ℚ) :
    ∀ (l : List Reminder) (i : Int) (acc : SimilarTaskResult),
      acc.similarity ≤ (findSimilarAux k th l i acc).similarity ∧
        ((findSimilarAux k th l i acc).similarity = acc.similarity →
          findSimilarAux k th l i acc = acc)
  | [], i, acc => by simp [findSimilarAux_nil]
  | task :: rest, i, acc => by
      by_cases hc : task.isCompleted
      · rw [findSimilarAux_cons_completed k th task rest i acc hc]
        exact findSimilarAux_mono k th rest (i + 1) acc
      · rw [Bool.not_eq_true] at hc
        by_cases hcond : acc.similarity < calculateTextSimilarity k.text task.text ∧
            areTasksSimilar k task.key th = true
        · rw [findSimilarAux_cons_pick k th task rest i acc hc hcond]
          have ih := findSimilarAux_mono k th rest (i + 1)
            ⟨i, some task, calculateTextSimilarity k.text task.text⟩
          constructor
          · exact le_trans (le_of_lt hcond.1) ih.1
          · intro he
            exfalso
            have hle := ih.1
            rw [he] at hle
            exact absurd hcond.1 (not_lt.mpr hle)
        · rw [findSimilarAux_cons_skip k th task rest i acc hc hcond]
          exact findSimilarAux_mono k th rest (i + 1) acc

theorem findSimilarAux_shape (k : TaskKey) (th : ℚ) :
    ∀ (l : List Reminder) (i : Int) (acc : SimilarTaskResult),
      findSimilarAux k th l i acc = acc ∨
        ∃ (j : Nat) (hj : j < l.length),
          findSimilarAux k th l i acc =
            ⟨i + (j : Int), some (l.get ⟨j, hj⟩),
              calculateTextSimilarity k.text (l.get ⟨j, hj⟩).text⟩ ∧
            (l.get ⟨j, hj⟩).isCompleted = false ∧
            areTasksSimilar k (l.get ⟨j, hj⟩).key th = true
  | [], i, acc => Or.inl (findSimilarAux_nil k th i acc)
  | task :: rest, i, acc => by
      by_cases hc : task.isCompleted
      · rw [findSimilarAux_cons_completed k th task rest i acc hc]
        rcases findSimilarAux_shape k th rest (i + 1) acc with h | ⟨j, hj, hres, hcm, hsim⟩
        · exact Or.inl h
        · refine Or.inr ⟨j + 1, by simpa using Nat.succ_lt_succ hj, ?_, hcm, hsim⟩
          rw [hres]
          congr 1
          push_cast
          ring
      · rw [Bool.not_eq_true] at hc
        by_cases hcond : acc.similarity < calculateTextSimilarity k.text task.text ∧
            areTasksSimilar k task.key th = true
        · rw [findSimilarAux_cons_pick k th task rest i acc hc hcond]
          rcases findSimilarAux_shape k th rest (i + 1)
              ⟨i, some task, calculateTextSimilarity k.text task.text⟩ with
            h | ⟨j, hj, hres, hcm, hsim⟩
          · refine Or.inr ⟨0, by simp, ?_, hc, hcond.2⟩
            rw [h]
            simp
          · refine Or.inr ⟨j + 1, by simpa using Nat.succ_lt_succ hj, ?_, hcm, hsim⟩
            rw [hres]
            congr 1
            push_cast
            ring
        · rw [findSimilarAux_cons_skip k th task rest i acc hc hcond]
          rcases findSimilarAux_shape k th rest (i + 1) acc with h | ⟨j, hj, hres, hcm, hsim⟩
          · exact Or.inl h
          · refine Or.inr ⟨j + 1, by simpa using Nat.succ_lt_succ hj, ?_, hcm, hsim⟩
            rw [hres]
            congr 1
            push_cast
            ring

theorem findSimilarAux_max (k : TaskKey) (th : ℚ) :
    ∀ (l : List Reminder) (i : Int) (acc : SimilarTaskResult),
      (0 < acc.similarity → acc.task ≠ none ∧ acc.index < i) →
      ∀ (j : Nat) (hj : j < l.length),
        (l.get ⟨j, hj⟩).isCompleted = false →
        areTasksSimilar k (l.get ⟨j, hj⟩).key th = true →
        0 < calculateTextSimilarity k.text (l.get ⟨j, hj⟩).text →
        calculateTextSimilarity k.text (l.get ⟨j, hj⟩).text ≤
            (findSimilarAux k th l i acc).similarity ∧
          (calculateTextSimilarity k.text (l.get ⟨j, hj⟩).text =
              (findSimilarAux k th l i acc).similarity →
            (findSimilarAux k th l i acc).task ≠ none ∧
              (findSimilarAux k th l i acc).index ≤ i + (j : Int))
  | [], _, _, _, j, hj => absurd hj (by simp)
  | task :: rest, i, acc, hacc, 0, hj => by
      intro hcm hsim hpos
      have hcm' : task.isCompleted = false := hcm
      have hsim' : areTasksSimilar k task.key th = true := hsim
      have hpos' : 0 < calculateTextSimilarity k.text task.text := hpos
      by_cases hcond : acc.similarity < calculateTextSimilarity k.text task.text ∧
          areTasksSimilar k task.key th = true
      · rw [findSimilarAux_cons_pick k th task rest i acc hcm' hcond]
        have ih := findSimilarAux_mono k th rest (i + 1)
          ⟨i, some task, calculateTextSimilarity k.text task.text⟩
        refine ⟨ih.1, fun he => ?_⟩
        have hr := ih.2 he.symm
        rw [hr]
        exact ⟨by simp, by simp⟩
      · rw [findSimilarAux_cons_skip k th task rest i acc hcm' hcond]
        have hsle : calculateTextSimilarity k.text task.text ≤ acc.similarity := by
          by_contra hlt
          exact hcond ⟨lt_of_not_le hlt, hsim'⟩
        have ih := findSimilarAux_mono k th rest (i + 1) acc
        refine ⟨le_trans hsle ih.1, fun he => ?_⟩
        have heq : (findSimilarAux k th rest (i + 1) acc).similarity =
            acc.similarity :=
          le_antisymm (by rw [← he]; exact hsle) ih.1
        have hr := ih.2 heq
        rw [hr]
        have hacc' := hacc (by rw [← heq, ← he]; exact hpos')
        exact ⟨hacc'.1, by omega⟩
  | task :: rest, i, acc, hacc, j + 1, hj => by
      intro hcm hsim hpos
      have hj' : j < rest.length := by simpa using Nat.lt_of_succ_lt_succ hj
      have hget : (task :: rest).get ⟨j + 1, hj⟩ = rest.get ⟨j, hj'⟩ := rfl
      rw [hget] at hcm hsim hpos ⊢
      by_cases hc : task.isCompleted
      · rw [findSimilarAux_cons_completed k th task rest i acc hc]
        have ih := findSimilarAux_max k th rest (i + 1) acc
          (fun hp => ⟨(hacc hp).1, by have := (hacc hp).2; omega⟩)
          j hj' hcm hsim hpos
        refine ⟨ih.1, fun he => ⟨(ih.2 he).1, ?_⟩⟩
        have := (ih.2 he).2
        push_cast at this ⊢
        omega
      · rw [Bool.not_eq_true] at hc
        by_cases hcond : acc.similarity < calculateTextSimilarity k.text task.text ∧
            areTasksSimilar k task.key th = true
        · rw [findSimilarAux_cons_pick k th task rest i acc hc hcond]
          have ih := findSimilarAux_max k th rest (i + 1)
            ⟨i, some task, calculateTextSimilarity k.text task.text⟩
            (fun _ => ⟨by simp, by simp⟩) j hj' hcm hsim hpos
          refine ⟨ih.1, fun he => ⟨(ih.2 he).1, ?_⟩⟩
          have := (ih.2 he).2
          push_cast at this ⊢
          omega
        · rw [findSimilarAux_cons_skip k th task rest i acc hc hcond]
          have ih := findSimilarAux_max k th rest (i + 1) acc
            (fun hp => ⟨(hacc hp).1, by have := (hacc hp).2; omega⟩)
            j hj' hcm hsim hpos
          refine ⟨ih.1, fun he => ⟨(ih.2 he).1, ?_⟩⟩
          have := (ih.2 he).2
          push_cast at this ⊢
          omega

theorem calculateTextSimilarity_self (a : String) :
    calculateTextSimilarity a a = 1 := by
  unfold calculateTextSimilarity
  rw [if_pos rfl]

theorem areTasksSimilar_buyMilk :
    areTasksSimilar keyBuyMilk taskBuyMilk.key 0.85 = true := by
  unfold areTasksSimilar
  rw [if_neg (by decide)]
  rw [if_pos (show (0.85 : ℚ) ≤ _ by
    show (0.85 : ℚ) ≤ calculateTextSimilarity "buy milk" "buy milk"
    rw [calculateTextSimilarity_self]
    norm_num)]

theorem findSimilarTask_buyMilk :
    (findSimilarTask keyBuyMilk [taskBuyMilk] 0.85).task = some taskBuyMilk := by
  unfold findSimilarTask
  rw [findSimilarAux_cons_pick keyBuyMilk 0.85 taskBuyMilk [] 0 ⟨-1, none, 0⟩ rfl
    ⟨show (0 : ℚ) < calculateTextSimilarity "buy milk" "buy milk" by
      rw [calculateTextSimilarity_self]; norm_num,
      areTasksSimilar_buyMilk⟩]
  rfl

/-- C3: for every candidate task and every list of existing tasks,
`findSimilarTask` never returns an existing task whose `isCompleted` is true —
a completed task is always skipped as a match target, regardless of
similarity. -/
theorem findSimilarTask_not_completed (newTask : TaskKey)
    (existingTasks : List Reminder) (threshold : ℚ) (t : Reminder)
    (h : (findSimilarTask newTask existingTasks threshold).task = some t) :
    t.isCompleted = false := by
  unfold findSimilarTask at h
  rcases findSimilarAux_shape newTask threshold existingTasks 0 ⟨-1, none, 0⟩ with
    hs | ⟨j, hj, hres, hcm, _⟩
  · rw [hs] at h
    simp at h
  · rw [hres] at h
    simp only [Option.some.injEq] at h
    rw [← h]
    exact hcm

/-- Witness for C3: on a concrete non-completed stored task with identical
text, `findSimilarTask` returns it and the theorem applies. -/
theorem findSimilarTask_not_completed_witness :
    (findSimilarTask keyBuyMilk [taskBuyMilk] 0.85).task = some taskBuyMilk ∧
      taskBuyMilk.isCompleted = false :=
  ⟨findSimilarTask_buyMilk,
    findSimilarTask_not_completed keyBuyMilk [taskBuyMilk] 0.85 taskBuyMilk
      findSimilarTask_buyMilk⟩

theorem areTasksSimilar_iff (newTask : TaskKey) (t : Reminder) (threshold : ℚ) :
    areTasksSimilar newTask t.key threshold = true ↔
      similarCriteria newTask threshold t := by
  unfold areTasksSimilar similarCriteria Reminder.key
  by_cases h1 : optToLower newTask.itemType ≠
      optToLower (⟨t.text, t.assignedTo, t.itemType⟩ : TaskKey).itemType
  · rw [if_pos h1]
    simp only [Bool.false_eq_true, false_iff]
    intro hcrit
    exact h1 (by rw [hcrit.1])
  · rw [if_neg h1]
    rw [not_not] at h1
    show (if threshold ≤ calculateTextSimilarity newTask.text t.text then true
      else if optToLower newTask.assignedTo = optToLower t.assignedTo ∧
          (0.7 : ℚ) ≤ calculateTextSimilarity newTask.text t.text then true
      else false) = true ↔ _
    by_cases h2 : threshold ≤ calculateTextSimilarity newTask.text t.text
    · rw [if_pos h2]
      simp only [true_iff]
      exact ⟨h1.symm, Or.inl h2⟩
    · rw [if_neg h2]
      by_cases h3 : optToLower newTask.assignedTo = optToLower t.assignedTo ∧
          (0.7 : ℚ) ≤ calculateTextSimilarity newTask.text t.text
      · rw [if_pos h3]
        simp only [true_iff]
        exact ⟨h1.symm, Or.inr ⟨h3.1.symm, h3.2⟩⟩
      · rw [if_neg h3]
        simp only [Bool.false_eq_true, false_iff]
        rintro ⟨_, hx | ⟨ha, hx⟩⟩
        · exact h2 hx
        · exact h3 ⟨ha.symm, hx⟩

theorem sim_ab_xy : calculateTextSimilarity "ab" "xy" = 0 := by
  unfold calculateTextSimilarity
  rw [show normalizeText "ab" = "ab" by decide,
    show normalizeText "xy" = "xy" by decide]
  rw [if_neg (by decide : ¬("ab" : String) = "xy")]
  rw [if_neg (by decide : ¬("ab" : String).length = 0)]
  rw [if_neg (by decide : ¬("xy" : String).length = 0)]
  rw [show levenshtein ("ab" : String).data ("xy" : String).data = 2 by decide]
  rw [show ("ab" : String).length = 2 from rfl,
    show ("xy" : String).length = 2 from rfl]
  norm_num

/-- Counterexample to C2 as stated: at threshold `0`, the stored task `taskXY`
satisfies the similarity criteria for `keyAB` (equal item types and text
similarity `0 ≥ threshold`) and is not completed, yet `findSimilarTask`
returns no match at all — the loop only takes a candidate whose similarity
strictly exceeds the running best, which starts at `0`. -/
theorem findSimilarTask_threshold_zero_counterexample :
    areTasksSimilar keyAB taskXY.key 0 = true ∧
      taskXY.isCompleted = false ∧
      (findSimilarTask keyAB [taskXY] 0).task = none ∧
      (findSimilarTask keyAB [taskXY] 0).index = -1 := by
  have hsim : areTasksSimilar keyAB taskXY.key 0 = true := by
    unfold areTasksSimilar
    rw [if_neg (by decide)]
    rw [if_pos (show (0 : ℚ) ≤ _ by
      show (0 : ℚ) ≤ calculateTextSimilarity "ab" "xy"
      rw [sim_ab_xy])]
  have heval : findSimilarTask keyAB [taskXY] 0 = ⟨-1, none, 0⟩ := by
    unfold findSimilarTask
    rw [findSimilarAux_cons_skip keyAB 0 taskXY [] 0 ⟨-1, none, 0⟩ rfl
      (by
        rintro ⟨hlt, _⟩
        rw [show calculateTextSimilarity keyAB.text taskXY.text =
            calculateTextSimilarity "ab" "xy" from rfl, sim_ab_xy] at hlt
        exact absurd hlt (lt_irrefl 0))]
    rfl
  exact ⟨hsim, rfl, by rw [heval], by rw [heval]⟩

/-- C2 (amended: the claim holds for every strictly positive threshold; at
`threshold ≤ 0` a task can satisfy the criteria with similarity `0` and is
then never selected, see the counterexample): `findSimilarTask` returns a
match only for a non-completed task satisfying the two-tier similarity
criteria, and among all non-completed tasks satisfying them it selects one
with the highest text similarity, ties broken by the lowest index. -/
theorem findSimilarTask_spec (newTask : TaskKey) (existingTasks : List Reminder)
    (threshold : ℚ) (hth : 0 < threshold) :
    (∀ t, (findSimilarTask newTask existingTasks threshold).task = some t →
      ∃ (j : Nat) (hj : j < existingTasks.length),
        (findSimilarTask newTask existingTasks threshold).index = (j : Int) ∧
          existingTasks.get ⟨j, hj⟩ = t ∧
          t.isCompleted = false ∧
          similarCriteria newTask threshold t ∧
          (findSimilarTask newTask existingTasks threshold).similarity =
            calculateTextSimilarity newTask.text t.text) ∧
    (∀ (j : Nat) (hj : j < existingTasks.length),
      (existingTasks.get ⟨j, hj⟩).isCompleted = false →
      similarCriteria newTask threshold (existingTasks.get ⟨j, hj⟩) →
      (findSimilarTask newTask existingTasks threshold).task ≠ none ∧
        calculateTextSimilarity newTask.text (existingTasks.get ⟨j, hj⟩).text ≤
          (findSimilarTask newTask existingTasks threshold).similarity ∧
        (calculateTextSimilarity newTask.text (existingTasks.get ⟨j, hj⟩).text =
            (findSimilarTask newTask existingTasks threshold).similarity →
          (findSimilarTask newTask existingTasks threshold).index ≤ (j : Int))) := by
  have hshape := findSimilarAux_shape newTask threshold existingTasks 0 ⟨-1, none, 0⟩
  constructor
  · intro t ht
    unfold findSimilarTask at ht ⊢
    rcases hshape with hs | ⟨j, hj, hres, hcm, hsim⟩
    · rw [hs] at ht
      simp at ht
    · rw [hres] at ht
      simp only [Option.some.injEq] at ht
      refine ⟨j, hj, ?_, ht, ?_, ?_, ?_⟩
      · rw [hres]
        simp
      · rw [← ht]; exact hcm
      · rw [← ht]
        exact (areTasksSimilar_iff newTask _ threshold).mp hsim
      · rw [hres, ← ht]
  · intro j hj hcm hcrit
    have hsim : areTasksSimilar newTask (existingTasks.get ⟨j, hj⟩).key
        threshold = true :=
      (areTasksSimilar_iff newTask _ threshold).mpr hcrit
    have hpos : 0 < calculateTextSimilarity newTask.text
        (existingTasks.get ⟨j, hj⟩).text := by
      rcases hcrit.2 with h | ⟨_, h⟩
      · exact lt_of_lt_of_le hth h
      · exact lt_of_lt_of_le (by norm_num) h
    have hmax := findSimilarAux_max newTask threshold existingTasks 0
      ⟨-1, none, 0⟩ (fun hp => absurd hp (by norm_num)) j hj hcm hsim hpos
    unfold findSimilarTask
    have htask : (findSimilarAux newTask threshold existingTasks 0
        ⟨-1, none, 0⟩).task ≠ none := by
      intro hnone
      rcases hshape with hs | ⟨j', hj', hres, _, _⟩
      · have hz : (findSimilarAux newTask threshold existingTasks 0
            ⟨-1, none, 0⟩).similarity = 0 := by rw [hs]
        have := hmax.1
        rw [hz] at this
        exact absurd (lt_of_lt_of_le hpos this) (lt_irrefl 0)
      · rw [hres] at hnone
        simp at hnone
    refine ⟨htask, hmax.1, fun he => ?_⟩
    have := (hmax.2 he).2
    omega

/-- Witness for C2 (amended): at the concrete positive threshold `0.85`, a
stored task satisfying the criteria forces a match to be returned. -/
theorem findSimilarTask_spec_witness :
    (findSimilarTask keyBuyMilk [taskBuyMilk] 0.85).task ≠ none := by
  have hcrit : similarCriteria keyBuyMilk 0.85 taskBuyMilk := by
    refine ⟨by decide, Or.inl ?_⟩
    show (0.85 : ℚ) ≤ calculateTextSimilarity "buy milk" "buy milk"
    rw [calculateTextSimilarity_self]
    norm_num
  exact ((findSimilarTask_spec keyBuyMilk [taskBuyMilk] 0.85 (by norm_num)).2
    0 (by decide) rfl hcrit).1

/-- C1: when the incoming fields score strictly below the existing task (the
incoming score computed with no notes), `mergeTaskData` discards them:
`shouldUpdate = false`, empty updates, and the reason cites the score
comparison. -/
theorem mergeTaskData_discard (existingTask : Reminder) (newData : NewTaskData)
    (h : newScoreOf newData < existingScoreOf existingTask) :
    mergeTaskData existingTask newData =
      ⟨ReminderUpdates.empty, false,
        scoreComparisonReason (existingScoreOf existingTask)
          (newScoreOf newData)⟩ := by
  simp only [mergeTaskData, shouldProceedWithMerge, if_pos h]
  rfl

/-- Witness for C1: a concrete rich existing task against bare incoming
fields. -/
theorem mergeTaskData_discard_witness :
    newScoreOf poorData < existingScoreOf richTask ∧
      mergeTaskData richTask poorData =
        ⟨ReminderUpdates.empty, false,
          scoreComparisonReason (existingScoreOf richTask)
            (newScoreOf poorData)⟩ := by
  have hE : existingScoreOf richTask = 69 / 2 := by
    unfold existingScoreOf richTask calculateInformationScore
    norm_num [optNonEmpty,
      show wordCount "call mom and dad" = 4 from by decide,
      show scanTime ("2024-12-15" : String).data = false from by decide,
      show ("details" : String).length = 7 from rfl,
      show ¬("2024-12-15" : String) = "" from by decide,
      show ¬("Alice" : String) = "" from by decide,
      show ¬("details" : String) = "" from by decide]
  have hN : newScoreOf poorData = 2 := by
    unfold newScoreOf poorData calculateInformationScore
    norm_num [optNonEmpty, show wordCount "call" = 1 from by decide]
  have h : newScoreOf poorData < existingScoreOf richTask := by
    rw [hE, hN]
    norm_num
  exact ⟨h, mergeTaskData_discard richTask poorData h⟩

theorem shouldUpdateDateField_iff (ed : Option String) (nv : String) :
    shouldUpdateDateField ed (some nv) = true ↔
      ¬nv = "" ∧ (optFalsy ed = true ∨
        (ed ≠ some nv ∧
          (hasTimeInDate ed = true → hasTimeInDate (some nv) = true))) := by
  rcases ed with _ | ev
  · by_cases hnv : nv = "" <;>
      simp [shouldUpdateDateField, shouldUpdateField, optFalsy, hasTimeInDate,
        hnv]
  · by_cases hnv : nv = ""
    · simp [shouldUpdateDateField, shouldUpdateField, hnv]
    · by_cases hev : ev = ""
      · subst hev
        have het : hasTimeInDate (some "") = false := by
          show scanTime ("" : String).data = false
          rfl
        simp [shouldUpdateDateField, shouldUpdateField, optFalsy, hnv, het]
      · by_cases hevnv : ev = nv
        · subst hevnv
          simp [shouldUpdateDateField, shouldUpdateField, optFalsy, hnv, hev]
        · cases het : hasTimeInDate (some ev) <;>
            cases hnt : hasTimeInDate (some nv) <;>
              simp [shouldUpdateDateField, shouldUpdateField, optFalsy, hnv,
                hev, hevnv, het, hnt]

theorem updateTextField_dueDate (a b : String) (u : ReminderUpdates) :
    (updateTextField a b u).2.dueDate = u.dueDate := by
  unfold updateTextField
  split_ifs <;> rfl

theorem updateDateField_dueDate (ed : Option String) (nv : String)
    (u : ReminderUpdates) :
    (updateDateField ed nv u).2.dueDate =
      if shouldUpdateDateField ed (some nv) then some nv else u.dueDate := by
  unfold updateDateField
  split_ifs <;> rfl

theorem updateAssignedToField_dueDate (ea : Option String) (na : String)
    (u : ReminderUpdates) :
    (updateAssignedToField ea na u).2.dueDate = u.dueDate := by
  unfold updateAssignedToField
  split_ifs <;> rfl

theorem updateRelationships_dueDate (er : Option (List String))
    (np : List String) (u : ReminderUpdates) :
    (updateRelationships er np u).2.dueDate = u.dueDate := by
  unfold updateRelationships
  split
  · rfl
  · dsimp only
    split <;> rfl

theorem markAsIncomplete_dueDate (c : Bool) (u : ReminderUpdates) :
    (markAsIncomplete c u).2.dueDate = u.dueDate := by
  unfold markAsIncomplete
  split_ifs <;> rfl

theorem applyTaskUpdates_dueDate (existingTask : Reminder)
    (newData : NewTaskData) (u : ReminderUpdates) :
    ((applyTaskUpdates existingTask newData u).2).dueDate =
      if shouldUpdateDateField existingTask.dueDate (some newData.dateToPerform)
      then some newData.dateToPerform else u.dueDate := by
  show (markAsIncomplete existingTask.isCompleted
      (updateRelationships existingTask.relationships newData.peopleInvolved
        (updateAssignedToField existingTask.assignedTo newData.assignedTo
          (updateDateField existingTask.dueDate newData.dateToPerform
            (updateTextField existingTask.text newData.taskName u).2).2).2).2).2.dueDate =
    _
  rw [markAsIncomplete_dueDate, updateRelationships_dueDate,
    updateAssignedToField_dueDate, updateDateField_dueDate,
    updateTextField_dueDate]

theorem mergeTaskData_updates_proceed (existingTask : Reminder)
    (newData : NewTaskData)
    (h : existingScoreOf existingTask ≤ newScoreOf newData) :
    (mergeTaskData existingTask newData).updates =
      (applyTaskUpdates existingTask newData ReminderUpdates.empty).2 := by
  have hp : ¬(newScoreOf newData < existingScoreOf existingTask) := not_lt.mpr h
  simp only [mergeTaskData, shouldProceedWithMerge, if_neg hp]
  rfl

theorem hasTimeInDate_not_falsy (ed : Option String)
    (h : hasTimeInDate ed = true) : optFalsy ed = false := by
  cases ed with
  | none => simp [hasTimeInDate] at h
  | some d =>
      unfold optFalsy
      simp only [decide_eq_false_iff_not]
      intro hd
      subst hd
      simp only [hasTimeInDate] at h
      exact absurd h (by decide)

/-- C4: in `mergeTaskData` (when the score gate lets the merge proceed), the
`dueDate` field is replaced exactly when the new date is non-empty and either
the existing due date is falsy, or the new date differs from the existing one
and its time-of-day presence is at least the existing one's; and in all cases
a due date carrying a time of day is never overwritten by one without. -/
theorem mergeTaskData_dueDate_rule (existingTask : Reminder)
    (newData : NewTaskData) :
    (existingScoreOf existingTask ≤ newScoreOf newData →
      ((mergeTaskData existingTask newData).updates.dueDate =
          some newData.dateToPerform ↔
        ¬newData.dateToPerform = "" ∧
          (optFalsy existingTask.dueDate = true ∨
            (existingTask.dueDate ≠ some newData.dateToPerform ∧
              (hasTimeInDate existingTask.dueDate = true →
                hasTimeInDate (some newData.dateToPerform) = true))))) ∧
    (hasTimeInDate existingTask.dueDate = true →
      hasTimeInDate (some newData.dateToPerform) = false →
      (mergeTaskData existingTask newData).updates.dueDate = none) := by
  constructor
  · intro hsc
    rw [mergeTaskData_updates_proceed existingTask newData hsc,
      applyTaskUpdates_dueDate]
    by_cases hs : shouldUpdateDateField existingTask.dueDate
        (some newData.dateToPerform) = true
    · rw [if_pos hs]
      exact ⟨fun _ => (shouldUpdateDateField_iff _ _).mp hs, fun _ => rfl⟩
    · rw [if_neg hs]
      show ReminderUpdates.empty.dueDate = _ ↔ _
      constructor
      · intro he
        exact absurd he (by simp [ReminderUpdates.empty])
      · intro hr
        exact absurd ((shouldUpdateDateField_iff _ _).mpr hr) hs
  · intro hex hnew
    by_cases hsc : existingScoreOf existingTask ≤ newScoreOf newData
    · rw [mergeTaskData_updates_proceed existingTask newData hsc,
        applyTaskUpdates_dueDate]
      have hs : ¬shouldUpdateDateField existingTask.dueDate
          (some newData.dateToPerform) = true := by
        intro hs
        rcases (shouldUpdateDateField_iff _ _).mp hs with ⟨_, hfal | ⟨_, himp⟩⟩
        · rw [hasTimeInDate_not_falsy _ hex] at hfal
          exact absurd hfal (by simp)
        · rw [himp hex] at hnew
          exact absurd hnew (by simp)
      rw [if_neg hs]
      rfl
    · have h := mergeTaskData_discard existingTask newData
        (lt_of_not_le hsc)
      rw [h]
      rfl

/-- Witness for C4: a dateless stored task merged with richer dated fields
gets the new due date. -/
theorem mergeTaskData_dueDate_rule_witness :
    existingScoreOf taskBuyMilk ≤ newScoreOf datedData ∧
      (mergeTaskData taskBuyMilk datedData).updates.dueDate =
        some "2024-12-15" := by
  have hE : existingScoreOf taskBuyMilk = 4 := by
    unfold existingScoreOf taskBuyMilk calculateInformationScore
    norm_num [optNonEmpty, show wordCount "buy milk" = 2 from by decide]
  have hN : newScoreOf datedData = 32 := by
    unfold newScoreOf datedData calculateInformationScore
    norm_num [optNonEmpty, show wordCount "buy milk" = 2 from by decide,
      show scanTime ("2024-12-15" : String).data = false from by decide,
      show ¬("2024-12-15" : String) = "" from by decide,
      show ¬("Bob" : String) = "" from by decide]
  have hsc : existingScoreOf taskBuyMilk ≤ newScoreOf datedData := by
    rw [hE, hN]
    norm_num
  refine ⟨hsc, ?_⟩
  exact ((mergeTaskData_dueDate_rule taskBuyMilk datedData).1 hsc).mpr
    ⟨by decide, Or.inl (by decide)⟩

/-- C10: when the item types agree case-insensitively and both tasks have an
empty-string `assignedTo` (or both have none at all), text similarity `≥ 0.7`
makes `areTasksSimilar` succeed, for every threshold — the assignee-match
relaxation applies when neither task has any assignee. -/
theorem areTasksSimilar_empty_assignees (task1 task2 : TaskKey) (threshold : ℚ)
    (hit : optToLower task1.itemType = optToLower task2.itemType)
    (ha : (task1.assignedTo = some "" ∧ task2.assignedTo = some "") ∨
      (task1.assignedTo = none ∧ task2.assignedTo = none))
    (hsim : (0.7 : ℚ) ≤ calculateTextSimilarity task1.text task2.text) :
    areTasksSimilar task1 task2 threshold = true := by
  unfold areTasksSimilar
  rw [if_neg (not_not.mpr hit)]
  dsimp only
  by_cases h2 : threshold ≤ calculateTextSimilarity task1.text task2.text
  · rw [if_pos h2]
  · rw [if_neg h2]
    have haeq : optToLower task1.assignedTo = optToLower task2.assignedTo := by
      rcases ha with ⟨ha1, ha2⟩ | ⟨ha1, ha2⟩ <;> rw [ha1, ha2]
    rw [if_pos ⟨haeq, hsim⟩]

/-- Witness for C10: identical texts, both assignees absent, threshold `2`
(out of reach), still similar through the relaxation. -/
theorem areTasksSimilar_empty_assignees_witness :
    areTasksSimilar keyBuyMilk taskBuyMilk.key 2 = true := by
  refine areTasksSimilar_empty_assignees keyBuyMilk taskBuyMilk.key 2
    (by decide) (Or.inr ⟨rfl, rfl⟩) ?_
  show (0.7 : ℚ) ≤ calculateTextSimilarity "buy milk" "buy milk"
  rw [calculateTextSimilarity_self]
  norm_num

/-- C9: `validateTaskData` reports `dateToPerform` missing (and then only
fails) exactly when the item type lower-cases to `task` or `project` and the
date is absent, empty or whitespace-only; for any other item type validation
succeeds with no missing fields. -/
theorem validateTaskData_spec (t : TaskValidationInput) :
    (MissingField.dateToPerform ∈ (validateTaskData t).2 ↔
      ((toLowerStr t.itemType = "task" ∨ toLowerStr t.itemType = "project") ∧
        optBlank t.dateToPerform = true)) ∧
    ((validateTaskData t).1 = false ↔
      ((toLowerStr t.itemType = "task" ∨ toLowerStr t.itemType = "project") ∧
        optBlank t.dateToPerform = true)) ∧
    (toLowerStr t.itemType ≠ "task" → toLowerStr t.itemType ≠ "project" →
      (validateTaskData t).1 = true ∧ (validateTaskData t).2 = []) := by
  unfold validateTaskData
  by_cases hcond : (toLowerStr t.itemType = "task" ∨
      toLowerStr t.itemType = "project") ∧ optBlank t.dateToPerform = true
  · rw [if_pos hcond]
    refine ⟨by simp [hcond], by simp [hcond], ?_⟩
    intro h1 h2
    rcases hcond.1 with h | h
    · exact absurd h h1
    · exact absurd h h2
  · rw [if_neg hcond]
    exact ⟨by simp [hcond], by simp [hcond], fun _ _ => ⟨rfl, rfl⟩⟩

/-- Witness for C9: a habit with no date validates successfully. -/
theorem validateTaskData_spec_witness :
    (validateTaskData ⟨"exercise", none, "habit", none⟩).1 = true ∧
      (validateTaskData ⟨"exercise", none, "habit", none⟩).2 = [] :=
  (validateTaskData_spec ⟨"exercise", none, "habit", none⟩).2.2
    (by decide) (by decide)

/-- Counterexample to C5 as stated: the existence check of
`createRelationshipLists` compares names with strict `===`, not
case-insensitively — with a list named `"alice"` present, synthesizing lists
for relationship `"Alice"` pushes a second list, leaving two lists whose
names are identical up to case. -/
theorem createRelationshipLists_case_counterexample :
    toLowerStr "Alice" = toLowerStr "alice" ∧
      (createRelationshipLists ["Alice"] "" "task"
          [⟨"1", "alice", "text-blue-400", 0, some "all"⟩]
          (fun _ => "fresh")).map (fun l => l.name) = ["alice", "Alice"] := by
  constructor
  · decide
  · decide

theorem createRelationshipListsAux_noop (itemType : String)
    (freshIds : Nat → String) :
    ∀ (rels : List String) (acc : List ReminderList) (n : Nat),
      (∀ rel ∈ rels, ∃ l ∈ acc, l.name = rel) →
      createRelationshipListsAux itemType freshIds rels acc n = acc
  | [], _, _, _ => rfl
  | rel :: rest, acc, n, h => by
      have hex : acc.any (fun list => list.name = rel) = true := by
        rcases h rel (List.mem_cons_self rel rest) with ⟨l, hl, hname⟩
        exact List.any_eq_true.mpr ⟨l, hl, by simp [hname]⟩
      unfold createRelationshipListsAux
      rw [if_pos hex]
      exact createRelationshipListsAux_noop itemType freshIds rest acc n
        (fun r hr => h r (List.mem_cons_of_mem rel hr))

/-- C5 (amended: the no-op guard is exact, case-sensitive name equality; a
relationship differing only in letter case from every existing list name does
create a new list — see the counterexample): when every non-empty
relationship (people plus category) already occurs as the exact `name` of
some current list, `createRelationshipLists` adds nothing. -/
theorem createRelationshipLists_noop (peopleInvolved : List String)
    (taskCategory itemType : String) (currentLists : List ReminderList)
    (freshIds : Nat → String)
    (h : ∀ rel ∈ (peopleInvolved ++ [taskCategory]).filter (fun s => s ≠ ""),
      ∃ l ∈ currentLists, l.name = rel) :
    createRelationshipLists peopleInvolved taskCategory itemType currentLists
      freshIds = currentLists := by
  unfold createRelationshipLists
  exact createRelationshipListsAux_noop itemType freshIds _ currentLists 0 h

/-- Witness for C5 (amended): an exactly-matching name makes the synthesis a
no-op. -/
theorem createRelationshipLists_noop_witness :
    createRelationshipLists ["alice"] "" "task"
        [⟨"1", "alice", "text-blue-400", 0, some "all"⟩] (fun _ => "fresh") =
      [⟨"1", "alice", "text-blue-400", 0, some "all"⟩] :=
  createRelationshipLists_noop ["alice"] "" "task"
    [⟨"1", "alice", "text-blue-400", 0, some "all"⟩] (fun _ => "fresh")
    (by decide)

theorem any_of_perm {α : Type} (p : α → Bool) {l1 l2 : List α}
    (h : l1.Perm l2) : l1.any p = l2.any p := by
  by_cases hb : l2.any p = true
  · rw [hb, List.any_eq_true]
    rcases List.any_eq_true.mp hb with ⟨x, hx, hp⟩
    exact ⟨x, h.mem_iff.mpr hx, hp⟩
  · rw [Bool.not_eq_true] at hb
    rw [hb, List.any_eq_false]
    intro x hx
    exact List.any_eq_false.mp hb x (h.mem_iff.mp hx)

theorem calculateFamilyCount_perm (reminders : List Reminder)
    {A A' : List ReminderList} (h : A.Perm A') :
    calculateFamilyCount reminders A = calculateFamilyCount reminders A' := by
  unfold calculateFamilyCount
  dsimp only
  congr 1
  apply List.filter_congr
  intro r _
  exact any_of_perm _ (h.filter _)

theorem calculateFamilyCount_map_count (reminders : List Reminder)
    (A : List ReminderList) (f : ReminderList → Nat) :
    calculateFamilyCount reminders (A.map (fun x => { x with count := f x })) =
      calculateFamilyCount reminders A := by
  unfold calculateFamilyCount
  dsimp only
  rw [List.filter_map]
  congr 1
  apply List.filter_congr
  intro r _
  rw [List.any_map]
  rfl

theorem calculateListCount_perm (today : String) (l : ReminderList)
    (reminders : List Reminder) {A A' : List ReminderList} (h : A.Perm A') :
    calculateListCount today l reminders A =
      calculateListCount today l reminders A' := by
  unfold calculateListCount
  split_ifs <;> first
    | rfl
    | exact calculateFamilyCount_perm reminders h

theorem calculateListCount_map_count (today : String) (l : ReminderList)
    (reminders : List Reminder) (A : List ReminderList)
    (f : ReminderList → Nat) :
    calculateListCount today l reminders
        (A.map (fun x => { x with count := f x })) =
      calculateListCount today l reminders A := by
  unfold calculateListCount
  split_ifs <;> first
    | rfl
    | exact calculateFamilyCount_map_count reminders A f

theorem calculateListCount_congr_id_name (today : String) (l1 l2 : ReminderList)
    (hid : l1.id = l2.id) (hname : l1.name = l2.name)
    (reminders : List Reminder) (A : List ReminderList) :
    calculateListCount today l1 reminders A =
      calculateListCount today l2 reminders A := by
  unfold calculateListCount
  rw [hid, hname]

/-- C6: list-count recomputation is idempotent, and the count computed for a
list does not depend on the order in which the lists appear in the
collection (the collection only feeds the `family` count through an
existential scan). -/
theorem updateListCounts_idempotent_orderIndep (today : String)
    (lists : List ReminderList) (reminders : List Reminder) :
    updateListCounts today (updateListCounts today lists reminders) reminders =
        updateListCounts today lists reminders ∧
      (∀ lists' : List ReminderList, lists.Perm lists' →
        ∀ l : ReminderList,
          calculateListCount today l reminders lists =
            calculateListCount today l reminders lists') := by
  constructor
  · unfold updateListCounts
    rw [List.map_map]
    apply List.map_congr_left
    intro x _
    simp only [Function.comp]
    rw [calculateListCount_map_count today _ reminders lists
      (fun list => calculateListCount today list reminders lists)]
    rw [calculateListCount_congr_id_name today
      { x with count := calculateListCount today x reminders lists } x rfl rfl
      reminders lists]
  · intro lists' hp l
    exact calculateListCount_perm today l reminders hp

/-- Witness for C6: two family sub-lists in either order yield the same
`family` count. -/
theorem updateListCounts_idempotent_orderIndep_witness :
    calculateListCount "2024-01-01" ⟨"family", "Family", "c", 0, none⟩ []
        [⟨"x", "alice", "c", 0, some "family"⟩,
          ⟨"y", "bob", "c", 0, some "family"⟩] =
      calculateListCount "2024-01-01" ⟨"family", "Family", "c", 0, none⟩ []
        [⟨"y", "bob", "c", 0, some "family"⟩,
          ⟨"x", "alice", "c", 0, some "family"⟩] :=
  (updateListCounts_idempotent_orderIndep "2024-01-01"
      [⟨"x", "alice", "c", 0, some "family"⟩,
        ⟨"y", "bob", "c", 0, some "family"⟩] []).2
    [⟨"y", "bob", "c", 0, some "family"⟩,
      ⟨"x", "alice", "c", 0, some "family"⟩]
    (List.Perm.swap _ _ _)
    ⟨"family", "Family", "c", 0, none⟩

end Assistant
